import Mathlib

/-!
Shallow embedding of the Carioca game server core (`src/backend/src/engine`
and `src/backend/src/api`), translated definition-by-definition from the Rust
source, together with theorems settling the specification claims.

Rust `&mut self` methods returning `Result<T, E>` are embedded as functions
`GameState → GameState × Except String T`: the returned state is the state
after the call, so error paths that mutated state before failing are captured
faithfully.  The deck shuffle (`rand`-driven) is abstracted as an explicit
permutation parameter `σ`.
-/

namespace Carioca

/-- From `engine/card.rs`: the four suits. -/
inductive Suit
  | hearts
  | diamonds
  | clubs
  | spades
deriving DecidableEq, Repr

/-- From `engine/card.rs`: card values `Two = 2` … `Ace = 14`. -/
inductive Value
  | two
  | three
  | four
  | five
  | six
  | seven
  | eight
  | nine
  | ten
  | jack
  | queen
  | king
  | ace
deriving DecidableEq, Repr

/-- The numeric discriminant of each `Value` (`Two = 2` … `Ace = 14`),
as produced by Rust's `*v as u8`. -/
def Value.toNat : Value → Nat
  | .two => 2
  | .three => 3
  | .four => 4
  | .five => 5
  | .six => 6
  | .seven => 7
  | .eight => 8
  | .nine => 9
  | .ten => 10
  | .jack => 11
  | .queen => 12
  | .king => 13
  | .ace => 14

/-- From `engine/card.rs`: `Value::points`. -/
def Value.points : Value → Nat
  | .two => 2
  | .three => 3
  | .four => 4
  | .five => 5
  | .six => 6
  | .seven => 7
  | .eight => 8
  | .nine => 9
  | .ten => 10
  | .jack => 10
  | .queen => 10
  | .king => 10
  | .ace => 20

/-- From `engine/card.rs`: a card is a standard (suit, value) pair or a joker. -/
inductive Card
  | standard (suit : Suit) (value : Value)
  | joker
deriving DecidableEq, Repr

/-- Default card, used only to embed Rust indexing expressions that are
guarded by an explicit bounds check in the source (the value is irrelevant
at every reachable call site). -/
instance : Inhabited Card := ⟨Card.joker⟩

/-- From `engine/card.rs`: `Card::points`. -/
def Card.points : Card → Nat
  | .standard _ v => v.points
  | .joker => 50

/-- From `engine/card.rs`: `Card::is_joker`. -/
def Card.is_joker : Card → Bool
  | .joker => true
  | .standard _ _ => false

/-- From `engine/points.rs`: `calculate_hand_points`. -/
def calculate_hand_points (hand : List Card) : Nat :=
  (hand.map Card.points).sum

/-! ## Rule predicates, from `engine/rules.rs` -/

/-- From `engine/rules.rs`: `is_valid_trio`.  The Rust loop tracks the first
standard value seen and fails on any differing standard value; the result is
`jokers <= 1 && standard_value.is_some()`. -/
def is_valid_trio (cards : List Card) : Bool :=
  if cards.length < 3 then false
  else
    let jokers := cards.countP fun c => c.is_joker
    match cards.filterMap (fun c => match c with
        | .standard _ v => some v
        | .joker => none) with
    | [] => false
    | v :: rest => rest.all (fun w => w == v) && jokers ≤ 1

/-- The rank mapping used inside `is_valid_escala`:
`let v_u8 = *v as u8; if v_u8 == 14 { 1 } else { v_u8 }` (Ace becomes 1). -/
def mapVal (v : Value) : Nat :=
  if v.toNat = 14 then 1 else v.toNat

/-- Number of jokers in a list of cards (the `jokers` counter of
`is_valid_escala`, and `meld.iter().filter(is_joker).count()` in
`combo_finder.rs`). -/
def jokerCount (cards : List Card) : Nat :=
  cards.countP fun c => c.is_joker

/-- The mapped ranks of the standard cards, in source order (the `values`
vector of `is_valid_escala` before sorting; the suit component collected by
the Rust code is never used). -/
def standardRanks (cards : List Card) : List Nat :=
  cards.filterMap fun c => match c with
    | .standard _ v => some (mapVal v)
    | .joker => none

/-- The duplicate check of `is_valid_escala`:
`values[i] == values[i + 1]` for some `i` (on the sorted vector). -/
def hasAdjDup : List Nat → Bool
  | [] => false
  | [_] => false
  | a :: b :: rest => a == b || hasAdjDup (b :: rest)

/-- The gap computed at loop index `i` of `is_valid_escala`'s modular
sequence-gap loop: `v2 + 13 - v1` at the wrap-around index, `v2 - v1`
otherwise (`v1 = values[i]`, `v2 = values[(i + 1) % len]`). -/
def gapAt (values : List Nat) (i : Nat) : Nat :=
  let v1 := values.getD i 0
  let v2 := values.getD ((i + 1) % values.length) 0
  if i = values.length - 1 then v2 + 13 - v1 else v2 - v1

/-- The `max_gap` accumulator of `is_valid_escala`. -/
def maxGap (values : List Nat) : Nat :=
  (List.range values.length).foldl (fun m i => max m (gapAt values i)) 0

/-- From `engine/rules.rs`: `is_valid_escala`.  Mirrors the Rust function:
length ≥ 4, at most one joker, at least one standard card, no duplicate
mapped ranks, and `needed_jokers = (13 - max_gap + 1) - values.len() ≤
jokers` where `max_gap` is the largest *modular* rank gap (so Ace counts
as 1 and K-A-2 wrap-arounds are allowed).  `sort_unstable` is embedded as
insertion sort (any sort of a `Vec<u8>` yields the same list).
Note: the function never inspects suits. -/
def is_valid_escala (cards : List Card) : Bool :=
  if cards.length < 4 then false
  else
    let jokers := jokerCount cards
    let standard_cards := standardRanks cards
    if jokers > 1 then false
    else if standard_cards.isEmpty then false
    else
      let values := List.insertionSort (· ≤ ·) standard_cards
      if hasAdjDup values then false
      else
        let span := 13 - maxGap values + 1
        let needed_jokers := span - values.length
        decide (needed_jokers ≤ jokers)

/-! ## Deck, from `engine/deck.rs` -/

/-- From `engine/deck.rs`: `Deck::new` — two 52-card decks, each followed by
two jokers, 108 cards total, in push order. -/
def deckNew : List Card :=
  let suits := [Suit.hearts, Suit.diamonds, Suit.clubs, Suit.spades]
  let values := [Value.two, Value.three, Value.four, Value.five, Value.six,
    Value.seven, Value.eight, Value.nine, Value.ten, Value.jack, Value.queen,
    Value.king, Value.ace]
  let one := (suits.map fun s => values.map fun v => Card.standard s v).flatten
    ++ [Card.joker, Card.joker]
  one ++ one

/-- From `engine/deck.rs`: `Deck::draw` is `Vec::pop`, i.e. it removes and
returns the *last* element. -/
def drawCard (deck : List Card) : Option (Card × List Card) :=
  match deck.getLast? with
  | none => none
  | some c => some (c, deck.dropLast)

/-- Draw `n` cards in order (the `for _ in 0..12 { if let Some(card) =
self.deck.draw() { player.hand.push(card) } }` loop of `start_round`);
returns the drawn cards in push order and the remaining deck. -/
def drawN : Nat → List Card → List Card × List Card
  | 0, deck => ([], deck)
  | n + 1, deck =>
    match drawCard deck with
    | none => ([], deck)
    | some (c, deck') =>
      let (cs, deck'') := drawN n deck'
      (c :: cs, deck'')

/-! ## Game state, from `engine/game.rs` -/

/-- From `engine/game.rs`: `LastAction`. -/
structure LastAction where
  player_id : String
  action_type : String
  card : Option Card
deriving DecidableEq, Repr

/-- From `engine/game.rs`: `RoundType`. -/
inductive RoundType
  | twoTrios
  | oneTrioOneEscala
  | twoEscalas
  | threeTrios
  | twoTriosOneEscala
  | oneTrioTwoEscalas
  | threeEscalas
  | fourTrios
  | escalaReal
deriving DecidableEq, Repr

/-- From `engine/game.rs`: `RoundType::all_rounds`. -/
def RoundType.all_rounds : List RoundType :=
  [.twoTrios, .oneTrioOneEscala, .twoEscalas, .threeTrios, .twoTriosOneEscala,
   .oneTrioTwoEscalas, .threeEscalas, .fourTrios, .escalaReal]

/-- From `engine/game.rs`: `RoundType::description`. -/
def RoundType.description : RoundType → String
  | .twoTrios => "2 Tríos (6 cards)"
  | .oneTrioOneEscala => "1 Trío, 1 Escala (7 cards)"
  | .twoEscalas => "2 Escalas (8 cards)"
  | .threeTrios => "3 Tríos (9 cards)"
  | .twoTriosOneEscala => "2 Tríos, 1 Escala (10 cards)"
  | .oneTrioTwoEscalas => "1 Trío, 2 Escalas (11 cards)"
  | .threeEscalas => "3 Escalas (12 cards)"
  | .fourTrios => "4 Tríos (12 cards)"
  | .escalaReal => "Escala Real (13 cards, same suit)"

/-- From `engine/game.rs`: `RoundType::get_requirements`, returning
`(required_trios, required_escalas)`. -/
def RoundType.get_requirements : RoundType → Nat × Nat
  | .twoTrios => (2, 0)
  | .oneTrioOneEscala => (1, 1)
  | .twoEscalas => (0, 2)
  | .threeTrios => (3, 0)
  | .twoTriosOneEscala => (2, 1)
  | .oneTrioTwoEscalas => (1, 2)
  | .threeEscalas => (0, 3)
  | .fourTrios => (4, 0)
  | .escalaReal => (0, 1)

/-- From `engine/game.rs`: `RoundEndResult`. -/
structure RoundEndResult where
  finished_round_index : Nat
  finished_round_name : String
  winner_id : String
  player_scores : List (String × Nat × Nat)
  next_round_index : Nat
  next_round_name : String
  is_game_over : Bool
deriving DecidableEq, Repr

/-- From `engine/game.rs`: `PlayerState`. -/
structure PlayerState where
  id : String
  hand : List Card
  points : Nat
  has_dropped_hand : Bool
  dropped_combinations : List (List Card)
  turns_played : Nat
  has_drawn_this_turn : Bool
  dropped_hand_this_turn : Bool
  is_ready_for_next_round : Bool
deriving DecidableEq, Repr

/-- Default player, used only to embed Rust indexing expressions guarded by
a bounds or membership check in the source. -/
instance : Inhabited PlayerState :=
  ⟨{ id := ""
     hand := []
     points := 0
     has_dropped_hand := false
     dropped_combinations := []
     turns_played := 0
     has_drawn_this_turn := false
     dropped_hand_this_turn := false
     is_ready_for_next_round := false }⟩

/-- From `engine/game.rs`: `GameState`.  The deck is its card vector. -/
structure GameState where
  players : List PlayerState
  current_round : RoundType
  round_index : Nat
  current_turn : Nat
  deck : List Card
  discard_pile : List Card
  is_game_over : Bool
  is_waiting_for_next_round : Bool
  last_action : Option LastAction
deriving DecidableEq, Repr

/-- From `engine/game.rs`: `GameState::new`. -/
def GameState.new (player_ids : List String) : GameState :=
  { players := player_ids.map fun id =>
      { id := id
        hand := []
        points := 0
        has_dropped_hand := false
        dropped_combinations := []
        turns_played := 0
        has_drawn_this_turn := false
        dropped_hand_this_turn := false
        is_ready_for_next_round := false }
    current_round := .twoTrios
    round_index := 0
    current_turn := 0
    deck := deckNew
    discard_pile := []
    is_game_over := false
    is_waiting_for_next_round := false
    last_action := none }

/-- The per-player body of `start_round`'s dealing loop: reset the round
flags, clear the hand and the table melds, then deal 12 cards. -/
def dealToPlayer (p : PlayerState) (deck : List Card) : PlayerState × List Card :=
  let (cards, deck') := drawN 12 deck
  ({ p with
      hand := cards
      has_dropped_hand := false
      dropped_combinations := []
      turns_played := 0
      has_drawn_this_turn := false
      dropped_hand_this_turn := false
      is_ready_for_next_round := false }, deck')

/-- `start_round`'s `for player in &mut self.players` loop, threading the
deck through the players in order. -/
def dealAll : List PlayerState → List Card → List PlayerState × List Card
  | [], deck => ([], deck)
  | p :: ps, deck =>
    let (p', deck') := dealToPlayer p deck
    let (ps', deck'') := dealAll ps deck'
    (p' :: ps', deck'')

/-- From `engine/game.rs`: `GameState::start_round`.  `σ` stands for the
uniformly-random permutation applied by `Deck::shuffle`; the Rust code
builds a fresh `Deck::new()`, shuffles it, clears the discard pile and
`last_action`, deals 12 cards to every player, then moves one card from the
deck to the discard pile. -/
def GameState.start_round (σ : List Card → List Card) (s : GameState) : GameState :=
  let deck0 := σ deckNew
  let (players', deck1) := dealAll s.players deck0
  match drawCard deck1 with
  | none =>
    { s with
        deck := deck1
        discard_pile := []
        players := players'
        last_action := none }
  | some (c, deck2) =>
    { s with
        deck := deck2
        discard_pile := [c]
        players := players'
        last_action := none }

/-- From `engine/game.rs`: `GameState::draw_from_deck`.  Note that the Rust
method pops the deck (`self.deck.draw()`) *before* looking up the current
player and checking `has_drawn_this_turn`, so those two error paths return
with the deck already shortened and the popped card dropped. -/
def GameState.draw_from_deck (s : GameState) : GameState × Except String Unit :=
  if s.is_game_over then (s, .error "Game is over")
  else if s.is_waiting_for_next_round then
    (s, .error "Waiting for other players to be ready for the next round")
  else
    match drawCard s.deck with
    | none => (s, .error "Deck is empty")
    | some (card, deck') =>
      let s1 := { s with deck := deck' }
      match s1.players[s1.current_turn]? with
      | none => (s1, .error "Invalid turn")
      | some player =>
        if player.has_drawn_this_turn then
          (s1, .error "You have already drawn a card this turn")
        else
          ({ s1 with
              players := s1.players.set s1.current_turn
                { player with
                    hand := player.hand ++ [card]
                    has_drawn_this_turn := true }
              last_action := some { player_id := player.id
                                    action_type := "drew_from_deck"
                                    card := none } }, .ok ())

/-- From `engine/game.rs`: `GameState::draw_from_discard`. -/
def GameState.draw_from_discard (s : GameState) : GameState × Except String Unit :=
  if s.is_game_over then (s, .error "Game is over")
  else if s.is_waiting_for_next_round then
    (s, .error "Waiting for other players to be ready for the next round")
  else
    match s.players[s.current_turn]? with
    | none => (s, .error "Invalid turn")
    | some player =>
      if player.has_drawn_this_turn then
        (s, .error "You have already drawn a card this turn")
      else if player.has_dropped_hand then
        (s, .error "Cannot draw from discard after dropping hand")
      else
        match s.discard_pile.getLast? with
        | none => (s, .error "Discard pile is empty")
        | some card =>
          ({ s with
              discard_pile := s.discard_pile.dropLast
              players := s.players.set s.current_turn
                { player with
                    hand := player.hand ++ [card]
                    has_drawn_this_turn := true }
              last_action := some { player_id := player.id
                                    action_type := "drew_from_pozo"
                                    card := some card } }, .ok ())

/-- From `engine/game.rs`: `GameState::end_round`.  Adds each player's
residual hand points to their totals, builds the `RoundEndResult`, advances
the round (entering the waiting-for-ready state and pre-marking bot seats
ready) or ends the game after the last round. -/
def GameState.end_round (s : GameState) : GameState × RoundEndResult :=
  let finished_round_index := s.round_index
  let finished_round_name := s.current_round.description
  let winner_id := (s.players.getD s.current_turn default).id
  let round_points := s.players.map fun p => calculate_hand_points p.hand
  let players1 := List.zipWith (fun p rp => { p with points := p.points + rp })
    s.players round_points
  let player_scores := List.zipWith (fun (p : PlayerState) rp => (p.id, rp, p.points))
    players1 round_points
  let round_index' := s.round_index + 1
  let rounds := RoundType.all_rounds
  if h : round_index' < rounds.length then
    let current_round' := rounds.get ⟨round_index', h⟩
    let s' := { s with
                players := players1.map fun p =>
                  { p with is_ready_for_next_round := p.id.startsWith "bot_" }
                round_index := round_index'
                current_round := current_round'
                current_turn := round_index' % s.players.length
                is_waiting_for_next_round := true }
    (s', { finished_round_index := finished_round_index
           finished_round_name := finished_round_name
           winner_id := winner_id
           player_scores := player_scores
           next_round_index := round_index'
           next_round_name := current_round'.description
           is_game_over := false })
  else
    let s' := { s with
                players := players1
                round_index := round_index'
                is_game_over := true }
    (s', { finished_round_index := finished_round_index
           finished_round_name := finished_round_name
           winner_id := winner_id
           player_scores := player_scores
           next_round_index := round_index'
           next_round_name := "Game Over"
           is_game_over := true })

/-- From `engine/game.rs`: `GameState::discard`. -/
def GameState.discard (s : GameState) (card_index : Nat) :
    GameState × Except String (Option RoundEndResult) :=
  if s.is_game_over then (s, .error "Game is over")
  else if s.is_waiting_for_next_round then
    (s, .error "Waiting for other players to be ready for the next round")
  else
    match s.players[s.current_turn]? with
    | none => (s, .error "Invalid turn")
    | some player =>
      if !player.has_drawn_this_turn then
        (s, .error "You must draw a card before discarding")
      else if player.hand.length ≤ card_index then
        (s, .error "Card index out of bounds")
      else
        let card := player.hand.getD card_index default
        let hand' := player.hand.eraseIdx card_index
        let hand_is_empty := hand'.isEmpty
        let players1 := s.players.set s.current_turn
          { player with
              hand := hand'
              turns_played := player.turns_played + 1
              has_drawn_this_turn := false
              dropped_hand_this_turn := false }
        let s1 := { s with
                    players := players1
                    discard_pile := s.discard_pile ++ [card]
                    last_action := some { player_id := player.id
                                          action_type := "discarded"
                                          card := some card } }
        if hand_is_empty then
          let (s2, result) := s1.end_round
          (s2, .ok (some result))
        else
          let next_turn := (s1.current_turn + 1) % s1.players.length
          let next_player := s1.players.getD next_turn default
          ({ s1 with
              current_turn := next_turn
              players := s1.players.set next_turn
                { next_player with
                    has_drawn_this_turn := false
                    dropped_hand_this_turn := false } }, .ok none)

/-- The card-ownership loop shared by `reorder_hand` and `drop_hand`: remove
each listed card from a working copy of the hand (first occurrence, as
`position` + `remove`), failing if one is missing. -/
def eraseCards (hand : List Card) : List Card → Option (List Card)
  | [] => some hand
  | c :: rest => if hand.contains c then eraseCards (hand.erase c) rest else none

/-- From `engine/game.rs`: `GameState::reorder_hand`. Note: it checks neither
`is_game_over` nor `is_waiting_for_next_round`. -/
def GameState.reorder_hand (s : GameState) (player_id : String)
    (new_hand : List Card) : GameState × Except String Unit :=
  match s.players.findIdx? (fun p => p.id == player_id) with
  | none => (s, .error "Player not found")
  | some idx =>
    let player := s.players.getD idx default
    if player.hand.length ≠ new_hand.length then
      (s, .error "New hand length does not match current hand length")
    else
      match eraseCards player.hand new_hand with
      | none => (s, .error "New hand contains an unknown card or extra duplicate")
      | some _ =>
        ({ s with players := s.players.set idx { player with hand := new_hand } },
         .ok ())

/-- `drop_hand`'s outer ownership loop over the submitted combinations. -/
def eraseCombos (hand : List Card) : List (List Card) → Option (List Card)
  | [] => some hand
  | combo :: rest =>
    match eraseCards hand combo with
    | none => none
    | some hand' => eraseCombos hand' rest

/-- `drop_hand`'s classification loop: count valid trios and escalas, failing
on any combination that is neither (`combo.len() >= 3 && is_valid_trio` or
`combo.len() >= 4 && is_valid_escala`). -/
def countCombos : List (List Card) → Option (Nat × Nat)
  | [] => some (0, 0)
  | combo :: rest =>
    if 3 ≤ combo.length && is_valid_trio combo then
      (countCombos rest).map fun te => (te.1 + 1, te.2)
    else if 4 ≤ combo.length && is_valid_escala combo then
      (countCombos rest).map fun te => (te.1, te.2 + 1)
    else none

/-- From `engine/game.rs`: `GameState::drop_hand`. -/
def GameState.drop_hand (s : GameState) (player_id : String)
    (combinations : List (List Card)) : GameState × Except String Unit :=
  if s.is_game_over then (s, .error "Game is over")
  else if s.is_waiting_for_next_round then
    (s, .error "Waiting for other players to be ready for the next round")
  else
    match s.players[s.current_turn]? with
    | none => (s, .error "Invalid turn")
    | some player =>
      if player.id ≠ player_id then (s, .error "Not your turn")
      else if !player.has_drawn_this_turn then
        (s, .error "You must draw a card before trying to drop your hand")
      else if player.has_dropped_hand then (s, .error "Hand already dropped")
      else
        match eraseCombos player.hand combinations with
        | none => (s, .error "Combinations contain cards not in player's hand")
        | some remaining =>
          let req := s.current_round.get_requirements
          match countCombos combinations with
          | none =>
            (s, .error "Invalid combination: trios must be at least 3 cards, escalas at least 4")
          | some found =>
            if found.1 ≠ req.1 ∨ found.2 ≠ req.2 then
              (s, .error "Combinations do not match the current round requirements")
            else
              ({ s with
                  players := s.players.set s.current_turn
                    { player with
                        hand := remaining
                        has_dropped_hand := true
                        dropped_hand_this_turn := true
                        dropped_combinations := combinations }
                  last_action := some { player_id := player.id
                                        action_type := "bajó"
                                        card := none } }, .ok ())

/-- From `engine/game.rs`: `GameState::mark_player_ready`.  `σ` is the
shuffle permutation used by `start_round` when the last seat becomes
ready. -/
def GameState.mark_player_ready (σ : List Card → List Card) (s : GameState)
    (player_id : String) : GameState × Except String Unit :=
  if !s.is_waiting_for_next_round then
    (s, .error "Game is not waiting for next round")
  else
    match s.players.findIdx? (fun p => p.id == player_id) with
    | none => (s, .error "Player not found")
    | some idx =>
      let players1 := s.players.set idx
        { s.players.getD idx default with is_ready_for_next_round := true }
      let s1 := { s with players := players1 }
      if players1.all (fun p => p.is_ready_for_next_round) then
        (GameState.start_round σ { s1 with is_waiting_for_next_round := false },
         .ok ())
      else (s1, .ok ())

/-! ## Shedding helpers, from `engine/combo_finder.rs` -/

/-- From `engine/combo_finder.rs`: `ShedPosition`. -/
inductive ShedPosition
  | extendLeft
  | extendRight
  | trioExtension
deriving DecidableEq, Repr

/-- From `engine/combo_finder.rs`: `is_meld_trio` — at least 3 cards, at most
one joker, all standard cards share one value, at least one standard card. -/
def is_meld_trio (meld : List Card) : Bool :=
  if meld.length < 3 then false
  else if jokerCount meld > 1 then false
  else
    match meld.filterMap (fun c => match c with
        | .standard _ v => some v
        | .joker => none) with
    | [] => false
    | v :: rest => rest.all (fun w => w == v)

/-- From `engine/combo_finder.rs`: `is_meld_escala` delegates to
`rules::is_valid_escala`. -/
def is_meld_escala (meld : List Card) : Bool :=
  is_valid_escala meld

/-- The forward walk of `escala_first_value`: each leading joker adds one to
`offset`; the first standard card yields `(value as i32 - offset) as u8`
(the `as u8` cast takes the value modulo 256). -/
def firstValAux : List Card → Int → Option Nat
  | [], _ => none
  | .standard _ v :: _, offset => some ((((v.toNat : Int) - offset).emod 256).toNat)
  | .joker :: rest, offset => firstValAux rest (offset + 1)

/-- From `engine/combo_finder.rs`: `escala_first_value`. -/
def escala_first_value (meld : List Card) : Option Nat :=
  firstValAux meld 0

/-- The backward walk of `escala_last_value` (over the reversed meld);
the first standard card yields `(value as i32 + offset) as u8`. -/
def lastValAux : List Card → Int → Option Nat
  | [], _ => none
  | .standard _ v :: _, offset => some ((((v.toNat : Int) + offset).emod 256).toNat)
  | .joker :: rest, offset => lastValAux rest (offset + 1)

/-- From `engine/combo_finder.rs`: `escala_last_value`. -/
def escala_last_value (meld : List Card) : Option Nat :=
  lastValAux meld.reverse 0

/-- From `engine/combo_finder.rs`: `can_shed`.  Wrapping `u8` additions are
embedded as `% 256`. -/
def can_shed (card : Card) (meld : List Card) : Option ShedPosition :=
  if meld.isEmpty then none
  else
    let joker_count := jokerCount meld
    let is_trio := is_meld_trio meld
    let is_escala := !is_trio && is_meld_escala meld
    if is_trio then
      match card with
      | .joker => if 1 ≤ joker_count then none else some .trioExtension
      | .standard _ value =>
        match meld.filterMap (fun c => match c with
            | .standard _ v => some v
            | .joker => none) with
        | [] => none
        | trio_value :: _ =>
          if value == trio_value then some .trioExtension else none
    else if is_escala then
      match meld.filterMap (fun c => match c with
          | .standard suit _ => some suit
          | .joker => none) with
      | [] => none
      | suit :: _ =>
        match escala_first_value meld, escala_last_value meld with
        | some first_val, some last_val =>
          match card with
          | .standard card_suit value =>
            if card_suit ≠ suit then none
            else
              let v := value.toNat
              if (v + 1) % 256 = first_val then some .extendLeft
              else if v = (last_val + 1) % 256 then some .extendRight
              else none
          | .joker =>
            if joker_count = 0 then some .extendRight else none
        | _, _ => none
    else none

/-- From `engine/game.rs`: `GameState::shed_card`. -/
def GameState.shed_card (s : GameState) (player_id : String)
    (hand_card_index : Nat) (target_player_id : String)
    (target_combo_idx : Nat) : GameState × Except String (Option RoundEndResult) :=
  if s.is_game_over then (s, .error "Game is over")
  else if s.is_waiting_for_next_round then
    (s, .error "Waiting for other players to be ready for the next round")
  else
    match s.players[s.current_turn]? with
    | none => (s, .error "Invalid turn")
    | some player =>
      if player.id ≠ player_id then (s, .error "Not your turn")
      else if !player.has_dropped_hand then
        (s, .error "You must drop your hand before shedding cards")
      else if player.dropped_hand_this_turn then
        (s, .error "You cannot shed cards on the same turn you drop your hand")
      else if !player.has_drawn_this_turn then
        (s, .error "You must draw a card before shedding cards")
      else if player.hand.length ≤ hand_card_index then
        (s, .error "Card index out of bounds")
      else
        let card := player.hand.getD hand_card_index default
        match s.players.findIdx? (fun p => p.id == target_player_id) with
        | none => (s, .error "Target player not found")
        | some target_player_pos =>
          let target_player := s.players.getD target_player_pos default
          if !target_player.has_dropped_hand then
            (s, .error "Target player has not dropped their hand yet")
          else if target_player.dropped_combinations.length ≤ target_combo_idx then
            (s, .error "Target combo index out of bounds")
          else
            let combo := target_player.dropped_combinations.getD target_combo_idx []
            match can_shed card combo with
            | none => (s, .error "This card cannot be shed onto that combo")
            | some position =>
              let players1 := s.players.set s.current_turn
                { player with hand := player.hand.eraseIdx hand_card_index }
              let s1 := { s with
                          players := players1
                          last_action := some { player_id := player.id
                                                action_type := "shed"
                                                card := some card } }
              let target1 := s1.players.getD target_player_pos default
              let combo1 := target1.dropped_combinations.getD target_combo_idx []
              let newCombo := match position with
                | .extendLeft => card :: combo1
                | .extendRight => combo1 ++ [card]
                | .trioExtension => combo1 ++ [card]
              let s2 := { s1 with
                          players := s1.players.set target_player_pos
                            { target1 with dropped_combinations :=
                                target1.dropped_combinations.set target_combo_idx newCombo } }
              if (s2.players.getD s.current_turn default).hand.isEmpty then
                let (s3, result) := s2.end_round
                (s3, .ok (some result))
              else (s2, .ok none)

/-! ## Wire protocol, from `api/events.rs` -/

/-- From `api/events.rs`: `ClientMessage`.  Payload structs are inlined as
constructor arguments. -/
inductive ClientMessage
  | drawFromDeck
  | drawFromDiscard
  | discard (card_index : Nat)
  | dropHand (combinations : List (List Card))
  | shedCard (hand_card_index : Nat) (target_player_id : String)
      (target_combo_idx : Nat)
  | reorderHand (hand : List Card)
deriving DecidableEq, Repr

/-- The client→server wire-protocol tags: `ClientMessage` is declared with
`#[serde(tag = "type")]`, so the accepted `type` values are exactly the
variant names of the enum in `api/events.rs`. -/
def clientMessageTags : List String :=
  ["DrawFromDeck", "DrawFromDiscard", "Discard", "DropHand", "ShedCard",
   "ReorderHand"]

/-! ## Bot policy, from `engine/bot.rs`

The bot's random choices (`rand::rng()`), the `find_best_bajada` solver
(whose candidate enumeration iterates a `HashMap` in unspecified order) and
the `f64` scoring of the Hard discard heuristic are abstracted as explicit
parameters; every claim about the bot is proved for all values of these
parameters or on paths that never consult them. -/

/-- From `engine/bot.rs`: `BotDifficulty`. -/
inductive BotDifficulty
  | easy
  | medium
  | hard
deriving DecidableEq, Repr

/-- From `engine/bot.rs`: `BotTurnPhase`. -/
inductive BotTurnPhase
  | needDraw
  | afterDraw
  | afterBajada
deriving DecidableEq, Repr

/-- From `engine/bot.rs`: `detect_phase`. -/
def detect_phase (player : PlayerState) : BotTurnPhase :=
  if player.has_dropped_hand then .afterBajada
  else if player.hand.length == 13 then .afterDraw
  else .needDraw

/-- From `engine/combo_finder.rs`: `MeldType`. -/
inductive MeldType
  | trio
  | escala
deriving DecidableEq, Repr

/-- From `engine/combo_finder.rs`: `MeldCandidate` (the derived `mask`
bitmask, redundant with `card_indices`, is omitted). -/
structure MeldCandidate where
  meld_type : MeldType
  card_indices : List Nat
deriving DecidableEq, Repr

/-- From `engine/bot.rs`: `card_synergy_score` — +15 per same-value card,
+10 / +5 per same-suit card at rank distance 1 / 2, joker = 100. -/
def card_synergy_score (hand : List Card) (target : Card) : Nat :=
  match target with
  | .joker => 100
  | .standard target_suit target_value =>
    hand.foldl (fun score c =>
      match c with
      | .standard suit value =>
        let score := if value == target_value then score + 15 else score
        if suit == target_suit then
          let diff := ((value.toNat : Int) - (target_value.toNat : Int)).natAbs
          if diff == 1 then score + 10
          else if diff == 2 then score + 5
          else score
        else score
      | .joker => score) 0

/-- From `engine/bot.rs`: `find_lowest_synergy_index` — the index whose
removal leaves the lowest synergy with the rest of the hand (`i64` scores,
initial minimum `i64::MAX`, strict improvement). -/
def find_lowest_synergy_index (hand : List Card) : Nat :=
  ((List.range hand.length).foldl (fun acc i =>
    let hand_without := hand.eraseIdx i
    let synergy : Int := card_synergy_score hand_without (hand.getD i default)
    if synergy < acc.2 then (i, synergy) else acc) (0, (2 : Int) ^ 63 - 1)).1

/-- From `engine/bot.rs`: `decide_draw`.  `easyRand` stands for the Easy
difficulty's `rng.random_bool(0.3)` coin flip. -/
def decide_draw (easyRand : Bool) (game : GameState) (player : PlayerState)
    (difficulty : BotDifficulty) : Option ClientMessage :=
  if game.discard_pile.isEmpty then some .drawFromDeck
  else
    let top_discard := (game.discard_pile.getLast?).getD default
    let should_draw_discard :=
      match difficulty with
      | .easy => easyRand
      | .medium => decide (15 ≤ card_synergy_score player.hand top_discard)
      | .hard => decide (15 ≤ card_synergy_score player.hand top_discard)
    if should_draw_discard then some .drawFromDiscard else some .drawFromDeck

/-- From `engine/bot.rs`: `decide_discard`.  `easyIdx` stands for the Easy
difficulty's uniformly random index choice and `hardIdx` for
`find_best_discard_index_hard` (an `f64`-weighted composite score, not
shallowly embeddable); no proved claim depends on either value. -/
def decide_discard (easyIdx hardIdx : Nat) (player : PlayerState)
    (difficulty : BotDifficulty) : ClientMessage :=
  if player.hand.isEmpty then .discard 0
  else
    let best_index :=
      match difficulty with
      | .easy => easyIdx
      | .medium => find_lowest_synergy_index player.hand
      | .hard => hardIdx
    .discard best_index

/-- From `engine/bot.rs`: `try_bajarse`.  `solver` stands for
`combo_finder::find_best_bajada` (hand, required trios, required escalas,
minimise points); its meld candidates are mapped back to the hand's cards. -/
def try_bajarse
    (solver : List Card → Nat → Nat → Bool → Option (List MeldCandidate))
    (game : GameState) (player : PlayerState) (difficulty : BotDifficulty) :
    Option ClientMessage :=
  let req := game.current_round.get_requirements
  let minimize_points := difficulty ≠ .easy
  match solver player.hand req.1 req.2 minimize_points with
  | none => none
  | some melds =>
    let combinations := melds.map fun m =>
      m.card_indices.map fun i => player.hand.getD i default
    some (.dropHand combinations)

/-- From `engine/bot.rs`: `play_bot_turn`.  In the `AfterDraw` phase the bot
attempts its bajada only when `player.turns_played > 0`. -/
def play_bot_turn
    (solver : List Card → Nat → Nat → Bool → Option (List MeldCandidate))
    (easyRand : Bool) (easyIdx hardIdx : Nat) (game : GameState)
    (player_id : String) (difficulty : BotDifficulty) : Option ClientMessage :=
  match game.players[game.current_turn]? with
  | none => none
  | some player =>
    if player.id ≠ player_id then none
    else
      match detect_phase player with
      | .needDraw => decide_draw easyRand game player difficulty
      | .afterDraw =>
        if 0 < player.turns_played then
          match try_bajarse solver game player difficulty with
          | some action => some action
          | none => some (decide_discard easyIdx hardIdx player difficulty)
        else some (decide_discard easyIdx hardIdx player difficulty)
      | .afterBajada => some (decide_discard easyIdx hardIdx player difficulty)

/-! ## Derived card count -/

/-- Cards a player holds: hand plus table melds. -/
def PlayerState.cardCount (p : PlayerState) : Nat :=
  p.hand.length + (p.dropped_combinations.map List.length).sum

/-- Total cards in the system: deck, discard pile, every hand and every
table meld (the left side of spec invariant I1). -/
def GameState.totalCards (s : GameState) : Nat :=
  s.deck.length + s.discard_pile.length +
    (s.players.map PlayerState.cardCount).sum

/-! ## Concrete states used by witnesses and counterexamples -/

/-- Shorthand for a standard card (mirrors the `std` helper of the Rust
test modules). -/
def std (s : Suit) (v : Value) : Card := Card.standard s v

/-- A freshly dealt 2-player game (identity shuffle). -/
def freshGame : GameState := GameState.start_round id (GameState.new ["alice", "bob"])

/-- An EscalaReal-round state: it is alice's turn, she has drawn, and her
hand contains a 4-card escala 3♥4♥5♥6♥ plus K♠. -/
def escalaRealState : GameState :=
  { players := [{ id := "alice"
                  hand := [std .hearts .three, std .hearts .four,
                           std .hearts .five, std .hearts .six, std .spades .king]
                  points := 0
                  has_dropped_hand := false
                  dropped_combinations := []
                  turns_played := 3
                  has_drawn_this_turn := true
                  dropped_hand_this_turn := false
                  is_ready_for_next_round := false },
                { id := "bob"
                  hand := [std .clubs .two]
                  points := 0
                  has_dropped_hand := false
                  dropped_combinations := []
                  turns_played := 3
                  has_drawn_this_turn := false
                  dropped_hand_this_turn := false
                  is_ready_for_next_round := false }]
    current_round := .escalaReal
    round_index := 8
    current_turn := 0
    deck := [std .diamonds .nine]
    discard_pile := [std .diamonds .seven]
    is_game_over := false
    is_waiting_for_next_round := false
    last_action := none }

/-- A finished game (`is_game_over = true`) in which alice still holds two
cards. -/
def overGame : GameState :=
  { players := [{ id := "alice"
                  hand := [std .hearts .two, std .spades .three]
                  points := 30
                  has_dropped_hand := false
                  dropped_combinations := []
                  turns_played := 2
                  has_drawn_this_turn := false
                  dropped_hand_this_turn := false
                  is_ready_for_next_round := false }]
    current_round := .escalaReal
    round_index := 9
    current_turn := 0
    deck := [std .diamonds .nine]
    discard_pile := [std .diamonds .seven]
    is_game_over := true
    is_waiting_for_next_round := false
    last_action := none }

/-! ## Claim theorems -/

/-- C1: card conservation fails on the code.  In a freshly dealt 2-player
round (108 cards in play), a first `draw_from_deck` succeeds and preserves
the total, but a second `draw_from_deck` in the same turn returns the
"already drawn" error *after* popping the deck, destroying the popped card:
the total drops to 107, violating the invariant
`|deck| + |discard| + Σ|hand| + ΣΣ|melds| = 108`. -/
theorem conservation_violated_by_second_draw :
    freshGame.totalCards = 108 ∧
    (freshGame.draw_from_deck).2 = .ok () ∧
    (freshGame.draw_from_deck).1.totalCards = 108 ∧
    ((freshGame.draw_from_deck).1.draw_from_deck).2 =
      .error "You have already drawn a card this turn" ∧
    ((freshGame.draw_from_deck).1.draw_from_deck).1.totalCards = 107 :=
  ⟨rfl, rfl, rfl, rfl, rfl⟩

/-- C2: in the EscalaReal round (round index 8, requirements (0, 1)),
`drop_hand` accepts a single *4-card* escala: the submitted 3♥4♥5♥6♥ is
validated only by `is_valid_escala` (length ≥ 4), no length-13 rule is
applied, and the drop succeeds, contradicting the claim that a shorter
escala is rejected. -/
theorem escala_real_accepts_four_card_escala :
    (escalaRealState.drop_hand "alice"
      [[std .hearts .three, std .hearts .four, std .hearts .five,
        std .hearts .six]]).2 = .ok () ∧
    ((escalaRealState.drop_hand "alice"
      [[std .hearts .three, std .hearts .four, std .hearts .five,
        std .hearts .six]]).1.players.getD 0 default).dropped_combinations =
      [[std .hearts .three, std .hearts .four, std .hearts .five,
        std .hearts .six]] :=
  ⟨rfl, rfl⟩

/-- C4 (counterexample): `is_valid_escala` accepts the K-A-2-3 wrap-around
(the repository's own test `test_valid_escala_wrapping_k_a_2` expects
exactly this), refuting the claim that any candidate implying a K-A-2 wrap
is rejected. -/
theorem escala_accepts_k_a_2_wrap :
    is_valid_escala [std .spades .king, std .spades .ace, std .spades .two,
      std .spades .three] = true := by
  decide

/-- C4 (amended): `is_valid_escala` maps the Ace to rank 1 and measures
rank gaps modulo 13, so consecutive runs may wrap at the K/A boundary in
either direction: for all suit assignments, K-A-2-3 is accepted, and
J-Q-K-A is accepted as well (as the wrap 1,11,12,13 rather than by an
ace-high rule). -/
theorem escala_ace_wraps_modulo_13 :
    ∀ (a b c d : Suit),
      is_valid_escala [std a .king, std b .ace, std c .two, std d .three] = true ∧
      is_valid_escala [std a .jack, std b .queen, std c .king, std d .ace] = true := by
  intro a b c d
  cases a <;> cases b <;> cases c <;> cases d <;> exact ⟨rfl, rfl⟩

/-- C6 (counterexample): `reorder_hand` checks neither `is_game_over` nor
`is_waiting_for_next_round`: in a finished game it succeeds and reorders
the player's hand, contradicting the claim that every listed operation
errors and leaves the state unchanged in that situation. -/
theorem reorder_hand_succeeds_after_game_over :
    overGame.is_game_over = true ∧
    (overGame.reorder_hand "alice" [std .spades .three, std .hearts .two]).2 =
      .ok () ∧
    ((overGame.reorder_hand "alice"
      [std .spades .three, std .hearts .two]).1.players.getD 0 default).hand =
      [std .spades .three, std .hearts .two] :=
  ⟨rfl, rfl, rfl⟩

/-- C6 (amended): `draw_from_deck`, `draw_from_discard`, `discard`,
`drop_hand` and `shed_card` all return an error and leave the state
unchanged whenever `is_game_over` or `is_waiting_for_next_round` is set
(these two guards open each of the five methods); `reorder_hand` performs
no such check. -/
theorem five_ops_reject_when_over_or_waiting (s : GameState)
    (h : s.is_game_over = true ∨ s.is_waiting_for_next_round = true) :
    (∃ e, s.draw_from_deck = (s, .error e)) ∧
    (∃ e, s.draw_from_discard = (s, .error e)) ∧
    (∀ i, ∃ e, s.discard i = (s, .error e)) ∧
    (∀ pid combos, ∃ e, s.drop_hand pid combos = (s, .error e)) ∧
    (∀ pid i tid j, ∃ e, s.shed_card pid i tid j = (s, .error e)) := by
  by_cases hg : s.is_game_over = true
  · exact ⟨⟨"Game is over", by simp [GameState.draw_from_deck, hg]⟩,
      ⟨"Game is over", by simp [GameState.draw_from_discard, hg]⟩,
      fun i => ⟨"Game is over", by simp [GameState.discard, hg]⟩,
      fun pid combos => ⟨"Game is over", by simp [GameState.drop_hand, hg]⟩,
      fun pid i tid j => ⟨"Game is over", by simp [GameState.shed_card, hg]⟩⟩
  · have hg' : s.is_game_over = false := by
      revert hg; cases s.is_game_over <;> simp
    have hw : s.is_waiting_for_next_round = true := h.resolve_left hg
    exact ⟨⟨"Waiting for other players to be ready for the next round",
        by simp [GameState.draw_from_deck, hg', hw]⟩,
      ⟨"Waiting for other players to be ready for the next round",
        by simp [GameState.draw_from_discard, hg', hw]⟩,
      fun i => ⟨"Waiting for other players to be ready for the next round",
        by simp [GameState.discard, hg', hw]⟩,
      fun pid combos => ⟨"Waiting for other players to be ready for the next round",
        by simp [GameState.drop_hand, hg', hw]⟩,
      fun pid i tid j => ⟨"Waiting for other players to be ready for the next round",
        by simp [GameState.shed_card, hg', hw]⟩⟩

/-- C6 witness: the amended theorem applied to the concrete finished game. -/
theorem five_ops_reject_witness :
    ∃ e, overGame.draw_from_deck = (overGame, .error e) :=
  (five_ops_reject_when_over_or_waiting overGame (Or.inl rfl)).1

/-- A state in mid-turn: alice (seat 0, on turn) has already drawn this
turn and the deck is non-empty. -/
def drawnState : GameState :=
  { players := [{ id := "alice"
                  hand := [std .clubs .four]
                  points := 0
                  has_dropped_hand := false
                  dropped_combinations := []
                  turns_played := 1
                  has_drawn_this_turn := true
                  dropped_hand_this_turn := false
                  is_ready_for_next_round := false }]
    current_round := .twoTrios
    round_index := 0
    current_turn := 0
    deck := [std .diamonds .nine, std .diamonds .ten]
    discard_pile := [std .diamonds .seven]
    is_game_over := false
    is_waiting_for_next_round := false
    last_action := none }

/-- C7: if the game is running, the deck is non-empty and the current
player has already drawn this turn, `draw_from_deck` returns the
"You have already drawn a card this turn" error, yet the resulting state
has the deck shortened by the popped card, which lands in no other zone
(everything except `deck` is unchanged). -/
theorem draw_from_deck_error_still_pops_deck (s : GameState) (p : PlayerState)
    (hover : s.is_game_over = false)
    (hwait : s.is_waiting_for_next_round = false)
    (hdeck : s.deck ≠ [])
    (hp : s.players[s.current_turn]? = some p)
    (hdrawn : p.has_drawn_this_turn = true) :
    s.draw_from_deck =
      ({ s with deck := s.deck.dropLast },
        .error "You have already drawn a card this turn") ∧
    (s.draw_from_deck).1.deck.length + 1 = s.deck.length := by
  obtain ⟨c, hc⟩ : ∃ c, s.deck.getLast? = some c := by
    cases hgl : s.deck.getLast? with
    | none => exact absurd (List.getLast?_eq_none_iff.mp hgl) hdeck
    | some c => exact ⟨c, rfl⟩
  have hmain : s.draw_from_deck =
      ({ s with deck := s.deck.dropLast },
        .error "You have already drawn a card this turn") := by
    unfold GameState.draw_from_deck drawCard
    simp [hover, hwait, hc, hp, hdrawn]
  refine ⟨hmain, ?_⟩
  rw [hmain]
  have hlen : 0 < s.deck.length := List.length_pos.mpr hdeck
  simp [List.length_dropLast]
  omega

/-- C7 witness: the theorem applied to the concrete mid-turn state. -/
theorem draw_from_deck_error_still_pops_deck_witness :
    drawnState.draw_from_deck =
      ({ drawnState with deck := drawnState.deck.dropLast },
        .error "You have already drawn a card this turn") ∧
    (drawnState.draw_from_deck).1.deck.length + 1 = drawnState.deck.length :=
  draw_from_deck_error_still_pops_deck drawnState _ rfl rfl (by decide) rfl rfl

/-- C5 (counterexample): the client→server protocol accepts exactly the six
`type` tags of the `ClientMessage` enum; `MarkReady` is not one of them. -/
theorem no_mark_ready_message :
    clientMessageTags.contains "MarkReady" = false := by
  decide

/-- `start_round` never writes `is_waiting_for_next_round`. -/
theorem start_round_preserves_waiting (σ : List Card → List Card)
    (s : GameState) :
    (GameState.start_round σ s).is_waiting_for_next_round =
      s.is_waiting_for_next_round := by
  unfold GameState.start_round
  rcases hp : dealAll s.players (σ deckNew) with ⟨players', deck1⟩
  rcases hd : drawCard deck1 with _ | ⟨c, d⟩ <;> simp [hp, hd]

/-- C5 (amended): the wire protocol has no `MarkReady` message (so nothing
reaches `mark_player_ready`); the function itself errors unless
`is_waiting_for_next_round`, errors on an unknown player id, and otherwise
sets the sender's `is_ready_for_next_round` flag; once every seat is ready
it clears the waiting flag and calls `start_round`, else it just records
the flag. -/
theorem mark_player_ready_spec (σ : List Card → List Card) (s : GameState)
    (pid : String) :
    (s.is_waiting_for_next_round = false →
      s.mark_player_ready σ pid = (s, .error "Game is not waiting for next round")) ∧
    (s.is_waiting_for_next_round = true →
      s.players.findIdx? (fun p => p.id == pid) = none →
      s.mark_player_ready σ pid = (s, .error "Player not found")) ∧
    (∀ idx, s.is_waiting_for_next_round = true →
      s.players.findIdx? (fun p => p.id == pid) = some idx →
      (s.mark_player_ready σ pid).2 = .ok () ∧
      ((s.players.set idx { s.players.getD idx default with
          is_ready_for_next_round := true }).all
            (fun p => p.is_ready_for_next_round) = true →
        (s.mark_player_ready σ pid).1 =
          GameState.start_round σ
            { s with
                players := s.players.set idx { s.players.getD idx default with
                  is_ready_for_next_round := true }
                is_waiting_for_next_round := false } ∧
        (s.mark_player_ready σ pid).1.is_waiting_for_next_round = false) ∧
      ((s.players.set idx { s.players.getD idx default with
          is_ready_for_next_round := true }).all
            (fun p => p.is_ready_for_next_round) = false →
        (s.mark_player_ready σ pid).1 =
          { s with players := s.players.set idx { s.players.getD idx default with
              is_ready_for_next_round := true } })) := by
  refine ⟨?_, ?_, ?_⟩
  · intro hw
    unfold GameState.mark_player_ready
    simp [hw]
  · intro hw hf
    unfold GameState.mark_player_ready
    simp [hw, hf]
  · intro idx hw hf
    unfold GameState.mark_player_ready
    simp only [hw, hf, Bool.not_true, Bool.false_eq_true, if_false]
    refine ⟨?_, ?_, ?_⟩
    · split <;> rfl
    · intro hall
      split
      next h => exact ⟨rfl, by rw [start_round_preserves_waiting]⟩
      next h => exact absurd hall h
    · intro hall
      split
      next h =>
        have h' : (s.players.set idx { s.players.getD idx default with
            is_ready_for_next_round := true }).all
              (fun p => p.is_ready_for_next_round) = true := h
        rw [hall] at h'
        exact absurd h' (by simp)
      next h => rfl

/-- A 2-player state waiting for the next round where only alice has not
yet marked ready. -/
def waitingState : GameState :=
  { players := [{ id := "alice"
                  hand := []
                  points := 12
                  has_dropped_hand := false
                  dropped_combinations := []
                  turns_played := 0
                  has_drawn_this_turn := false
                  dropped_hand_this_turn := false
                  is_ready_for_next_round := false },
                { id := "bob"
                  hand := []
                  points := 4
                  has_dropped_hand := false
                  dropped_combinations := []
                  turns_played := 0
                  has_drawn_this_turn := false
                  dropped_hand_this_turn := false
                  is_ready_for_next_round := true }]
    current_round := .oneTrioOneEscala
    round_index := 1
    current_turn := 1
    deck := []
    discard_pile := []
    is_game_over := false
    is_waiting_for_next_round := true
    last_action := none }

/-- C5 witness: marking the last unready seat succeeds, clears the waiting
flag and starts the next round. -/
theorem mark_player_ready_spec_witness :
    (waitingState.mark_player_ready id "alice").2 = .ok () ∧
    (waitingState.mark_player_ready id "alice").1.is_waiting_for_next_round = false := by
  have h := (mark_player_ready_spec id waitingState "alice").2.2 0 rfl rfl
  exact ⟨h.1, (h.2.1 rfl).2⟩

/-- Case analysis of `shed_card`: every call either returns an error with
the state unchanged, or succeeds, in which case all of its guard conditions
held. -/
theorem shed_card_err_or_ok (s : GameState) (pid : String) (i : Nat)
    (tid : String) (j : Nat) :
    (∃ e, s.shed_card pid i tid j = (s, .error e)) ∨
    ((∃ x, (s.shed_card pid i tid j).2 = .ok x) ∧
      ∃ p, s.players[s.current_turn]? = some p ∧ p.id = pid ∧
        p.has_drawn_this_turn = true ∧ p.has_dropped_hand = true ∧
        p.dropped_hand_this_turn = false ∧
        ∃ tpos, s.players.findIdx? (fun q => q.id == tid) = some tpos ∧
          (s.players.getD tpos default).has_dropped_hand = true) := by
  delta GameState.shed_card
  by_cases h1 : s.is_game_over = true
  · rw [if_pos h1]; exact Or.inl ⟨_, rfl⟩
  rw [if_neg h1]
  by_cases h2 : s.is_waiting_for_next_round = true
  · rw [if_pos h2]; exact Or.inl ⟨_, rfl⟩
  rw [if_neg h2]
  cases h3 : s.players[s.current_turn]? with
  | none => simp only [h3]; exact Or.inl ⟨_, rfl⟩
  | some player =>
    simp only [h3]
    by_cases h4 : player.id ≠ pid
    · rw [if_pos h4]; exact Or.inl ⟨_, rfl⟩
    rw [if_neg h4]
    by_cases h5 : (!player.has_dropped_hand) = true
    · rw [if_pos h5]; exact Or.inl ⟨_, rfl⟩
    rw [if_neg h5]
    by_cases h6 : player.dropped_hand_this_turn = true
    · rw [if_pos h6]; exact Or.inl ⟨_, rfl⟩
    rw [if_neg h6]
    by_cases h7 : (!player.has_drawn_this_turn) = true
    · rw [if_pos h7]; exact Or.inl ⟨_, rfl⟩
    rw [if_neg h7]
    by_cases h8 : player.hand.length ≤ i
    · rw [if_pos h8]; exact Or.inl ⟨_, rfl⟩
    rw [if_neg h8]
    cases h9 : s.players.findIdx? (fun q => q.id == tid) with
    | none => simp only [h9]; exact Or.inl ⟨_, rfl⟩
    | some tpos =>
      simp only [h9]
      by_cases h10 : (!(s.players.getD tpos default).has_dropped_hand) = true
      · rw [if_pos h10]; exact Or.inl ⟨_, rfl⟩
      rw [if_neg h10]
      by_cases h11 : (s.players.getD tpos default).dropped_combinations.length ≤ j
      · rw [if_pos h11]; exact Or.inl ⟨_, rfl⟩
      rw [if_neg h11]
      cases h12 : can_shed (player.hand.getD i default)
          ((s.players.getD tpos default).dropped_combinations.getD j []) with
      | none => simp only [h12]; exact Or.inl ⟨_, rfl⟩
      | some pos =>
        simp only [h12]
        refine Or.inr ⟨?_, player, rfl, not_ne_iff.mp h4, ?_, ?_, ?_, tpos, rfl, ?_⟩
        · dsimp only
          split
          · exact ⟨_, rfl⟩
          · exact ⟨_, rfl⟩
        · simpa using h7
        · simpa using h5
        · simpa using h6
        · simpa using h10

/-- C9: `shed_card` succeeds only when it is the caller's turn, the caller
has drawn this turn, has dropped their hand, did not drop it on this same
turn, and the target player exists and has dropped their hand; every error
leaves the state unchanged; and (all other turn conditions being met) a
caller who dropped this very turn gets exactly the "You cannot shed cards
on the same turn you drop your hand" error. -/
theorem shed_card_requires_turn_drawn_bajado (s : GameState) (pid : String)
    (i : Nat) (tid : String) (j : Nat) :
    (∀ x, (s.shed_card pid i tid j).2 = .ok x →
      ∃ p, s.players[s.current_turn]? = some p ∧ p.id = pid ∧
        p.has_drawn_this_turn = true ∧ p.has_dropped_hand = true ∧
        p.dropped_hand_this_turn = false ∧
        ∃ tpos, s.players.findIdx? (fun q => q.id == tid) = some tpos ∧
          (s.players.getD tpos default).has_dropped_hand = true) ∧
    (∀ e, (s.shed_card pid i tid j).2 = .error e →
      (s.shed_card pid i tid j).1 = s) ∧
    (∀ p, s.players[s.current_turn]? = some p → s.is_game_over = false →
      s.is_waiting_for_next_round = false → p.id = pid →
      p.has_dropped_hand = true → p.dropped_hand_this_turn = true →
      (s.shed_card pid i tid j).2 =
        .error "You cannot shed cards on the same turn you drop your hand") := by
  refine ⟨?_, ?_, ?_⟩
  · intro x hx
    rcases shed_card_err_or_ok s pid i tid j with ⟨e, he⟩ | ⟨_, hconds⟩
    · rw [he] at hx
      exact absurd hx (by simp)
    · exact hconds
  · intro e he
    rcases shed_card_err_or_ok s pid i tid j with ⟨e', he'⟩ | ⟨⟨x, hx⟩, _⟩
    · rw [he']
    · rw [hx] at he
      exact absurd he (by simp)
  · intro p hget hover hwait hid hdropped hsame
    delta GameState.shed_card
    rw [if_neg (by simp [hover] : ¬s.is_game_over = true)]
    rw [if_neg (by simp [hwait] : ¬s.is_waiting_for_next_round = true)]
    simp only [hget]
    rw [if_neg (by simp [hid] : ¬p.id ≠ pid)]
    rw [if_neg (by simp [hdropped] : ¬(!p.has_dropped_hand) = true)]
    rw [if_pos hsame]

/-- A state in which alice dropped her hand this very turn (bajada turn)
and tries to shed. -/
def sameTurnShedState : GameState :=
  { players := [{ id := "alice"
                  hand := [std .diamonds .five, std .clubs .king]
                  points := 0
                  has_dropped_hand := true
                  dropped_combinations := [[std .hearts .five, std .clubs .five,
                    std .spades .five]]
                  turns_played := 2
                  has_drawn_this_turn := true
                  dropped_hand_this_turn := true
                  is_ready_for_next_round := false }]
    current_round := .twoTrios
    round_index := 0
    current_turn := 0
    deck := [std .diamonds .nine]
    discard_pile := [std .diamonds .seven]
    is_game_over := false
    is_waiting_for_next_round := false
    last_action := none }

/-- C9 witness: the theorem applied to the same-turn bajada state. -/
theorem shed_card_requires_witness :
    (sameTurnShedState.shed_card "alice" 0 "alice" 0).2 =
      .error "You cannot shed cards on the same turn you drop your hand" :=
  (shed_card_requires_turn_drawn_bajado sameTurnShedState "alice" 0 "alice" 0).2.2
    _ rfl rfl rfl rfl rfl rfl

/-- If the first-occurrence removal loop succeeds, the remaining hand plus
the removed cards is a permutation of the original hand. -/
theorem eraseCards_perm (cards : List Card) :
    ∀ hand h', eraseCards hand cards = some h' → (h' ++ cards).Perm hand := by
  induction cards with
  | nil =>
    intro hand h' h
    unfold eraseCards at h
    cases h
    simp
  | cons c rest ih =>
    intro hand h' h
    unfold eraseCards at h
    by_cases hc : hand.contains c
    · rw [if_pos hc] at h
      have hperm := ih (hand.erase c) h' h
      have hmem : c ∈ hand := List.mem_of_elem_eq_true hc
      have t1 : (h' ++ c :: rest).Perm (c :: (h' ++ rest)) := List.perm_middle
      have t2 : (c :: (h' ++ rest)).Perm (c :: hand.erase c) := hperm.cons c
      have t3 : (c :: hand.erase c).Perm hand := (List.perm_cons_erase hmem).symm
      exact (t1.trans t2).trans t3
    · rw [if_neg hc] at h
      cases h

/-- Iterated over the submitted combinations: the remaining hand plus all
submitted cards is a permutation of the original hand. -/
theorem eraseCombos_perm (combos : List (List Card)) :
    ∀ hand h', eraseCombos hand combos = some h' →
      (h' ++ combos.flatten).Perm hand := by
  induction combos with
  | nil =>
    intro hand h' h
    unfold eraseCombos at h
    cases h
    simp
  | cons combo rest ih =>
    intro hand h' h
    unfold eraseCombos at h
    cases hc : eraseCards hand combo with
    | none => rw [hc] at h; cases h
    | some hand1 =>
      rw [hc] at h
      have h1 := eraseCards_perm combo hand hand1 hc
      have h2 := ih hand1 h' h
      have t0 : h' ++ (combo :: rest).flatten = h' ++ (combo ++ rest.flatten) := by simp
      have t1 : (h' ++ (combo ++ rest.flatten)).Perm (h' ++ (rest.flatten ++ combo)) :=
        List.Perm.append_left h' List.perm_append_comm
      have t2 : h' ++ (rest.flatten ++ combo) = (h' ++ rest.flatten) ++ combo :=
        (List.append_assoc _ _ _).symm
      have t3 : ((h' ++ rest.flatten) ++ combo).Perm (hand1 ++ combo) :=
        h2.append_right combo
      rw [t0]
      exact (t1.trans (t2 ▸ (t3.trans h1)))

/-- Case analysis of `drop_hand`: either an error with the state unchanged,
or success with the full resulting state spelled out. -/
theorem drop_hand_err_or_ok (s : GameState) (pid : String)
    (combos : List (List Card)) :
    (∃ e, s.drop_hand pid combos = (s, .error e)) ∨
    (∃ p remaining, s.players[s.current_turn]? = some p ∧
      eraseCombos p.hand combos = some remaining ∧
      s.drop_hand pid combos =
        ({ s with
            players := s.players.set s.current_turn
              { p with
                  hand := remaining
                  has_dropped_hand := true
                  dropped_hand_this_turn := true
                  dropped_combinations := combos }
            last_action := some { player_id := p.id
                                  action_type := "bajó"
                                  card := none } }, .ok ())) := by
  delta GameState.drop_hand
  by_cases h1 : s.is_game_over = true
  · rw [if_pos h1]; exact Or.inl ⟨_, rfl⟩
  rw [if_neg h1]
  by_cases h2 : s.is_waiting_for_next_round = true
  · rw [if_pos h2]; exact Or.inl ⟨_, rfl⟩
  rw [if_neg h2]
  cases h3 : s.players[s.current_turn]? with
  | none => simp only [h3]; exact Or.inl ⟨_, rfl⟩
  | some player =>
    simp only [h3]
    by_cases h4 : player.id ≠ pid
    · rw [if_pos h4]; exact Or.inl ⟨_, rfl⟩
    rw [if_neg h4]
    by_cases h5 : (!player.has_drawn_this_turn) = true
    · rw [if_pos h5]; exact Or.inl ⟨_, rfl⟩
    rw [if_neg h5]
    by_cases h6 : player.has_dropped_hand = true
    · rw [if_pos h6]; exact Or.inl ⟨_, rfl⟩
    rw [if_neg h6]
    cases h7 : eraseCombos player.hand combos with
    | none => simp only [h7]; exact Or.inl ⟨_, rfl⟩
    | some remaining =>
      simp only [h7]
      cases h8 : countCombos combos with
      | none => simp only [h8]; exact Or.inl ⟨_, rfl⟩
      | some found =>
        simp only [h8]
        by_cases h9 : found.1 ≠ (s.current_round.get_requirements).1 ∨
            found.2 ≠ (s.current_round.get_requirements).2
        · rw [if_pos h9]; exact Or.inl ⟨_, rfl⟩
        · rw [if_neg h9]
          exact Or.inr ⟨player, remaining, rfl, h7, rfl⟩

/-- C8: on every successful `drop_hand`, exactly the submitted cards leave
the hand (as multisets, respecting duplicates), the player's
`dropped_combinations` become the submitted groups in submission order,
`has_dropped_hand` and `dropped_hand_this_turn` are set, and
`current_turn` is unchanged (the turn does not end). -/
theorem drop_hand_success_spec (s : GameState) (pid : String)
    (combos : List (List Card))
    (hok : (s.drop_hand pid combos).2 = .ok ()) :
    (s.drop_hand pid combos).1.current_turn = s.current_turn ∧
    ∃ p p', s.players[s.current_turn]? = some p ∧
      (s.drop_hand pid combos).1.players[s.current_turn]? = some p' ∧
      p'.dropped_combinations = combos ∧
      p'.has_dropped_hand = true ∧
      p'.dropped_hand_this_turn = true ∧
      (p'.hand ++ combos.flatten).Perm p.hand := by
  rcases drop_hand_err_or_ok s pid combos with ⟨e, he⟩ | ⟨p, remaining, hget, herase, hres⟩
  · rw [he] at hok
    exact absurd hok (by simp)
  · have hlt : s.current_turn < s.players.length :=
      (List.getElem?_eq_some.mp hget).1
    rw [hres]
    refine ⟨rfl, p, { p with hand := remaining, has_dropped_hand := true, dropped_hand_this_turn := true, dropped_combinations := combos }, hget, ?_, rfl, rfl, rfl, ?_⟩
    · exact List.getElem?_set_self (by simpa using hlt)
    · exact eraseCombos_perm combos p.hand remaining herase

/-- A round-1 (TwoTrios) state in which alice has drawn and holds two
complete trios plus a spare card. -/
def bajadaState : GameState :=
  { players := [{ id := "alice"
                  hand := [std .hearts .five, std .clubs .five, std .spades .five,
                           std .hearts .nine, std .clubs .nine, std .diamonds .nine,
                           std .spades .king]
                  points := 0
                  has_dropped_hand := false
                  dropped_combinations := []
                  turns_played := 1
                  has_drawn_this_turn := true
                  dropped_hand_this_turn := false
                  is_ready_for_next_round := false },
                { id := "bob"
                  hand := [std .clubs .two]
                  points := 0
                  has_dropped_hand := false
                  dropped_combinations := []
                  turns_played := 1
                  has_drawn_this_turn := false
                  dropped_hand_this_turn := false
                  is_ready_for_next_round := false }]
    current_round := .twoTrios
    round_index := 0
    current_turn := 0
    deck := [std .diamonds .nine]
    discard_pile := [std .diamonds .seven]
    is_game_over := false
    is_waiting_for_next_round := false
    last_action := none }

/-- C8 witness: the theorem applied to a concrete successful bajada of two
trios. -/
theorem drop_hand_success_spec_witness :
    (bajadaState.drop_hand "alice"
      [[std .hearts .five, std .clubs .five, std .spades .five],
       [std .hearts .nine, std .clubs .nine, std .diamonds .nine]]).1.current_turn =
      bajadaState.current_turn ∧
    ∃ p p', bajadaState.players[bajadaState.current_turn]? = some p ∧
      (bajadaState.drop_hand "alice"
        [[std .hearts .five, std .clubs .five, std .spades .five],
         [std .hearts .nine, std .clubs .nine, std .diamonds .nine]]).1.players[bajadaState.current_turn]? = some p' ∧
      p'.dropped_combinations =
        [[std .hearts .five, std .clubs .five, std .spades .five],
         [std .hearts .nine, std .clubs .nine, std .diamonds .nine]] ∧
      p'.has_dropped_hand = true ∧
      p'.dropped_hand_this_turn = true ∧
      (p'.hand ++ [[std .hearts .five, std .clubs .five, std .spades .five],
         [std .hearts .nine, std .clubs .nine, std .diamonds .nine]].flatten).Perm p.hand :=
  drop_hand_success_spec bajadaState "alice"
    [[std .hearts .five, std .clubs .five, std .spades .five],
     [std .hearts .nine, std .clubs .nine, std .diamonds .nine]] rfl

/-- Recognizer for `DropHand` messages. -/
def ClientMessage.isDropHand : ClientMessage → Bool
  | .dropHand _ => true
  | _ => false

/-- The spec's opening-turn scenario: the bot (seat 0, on turn,
`turns_played = 0`) holds 13 cards containing two complete trios. -/
def medBotGame : GameState :=
  { players := [{ id := "bot_test"
                  hand := [std .hearts .five, std .clubs .five, std .spades .five,
                           std .hearts .nine, std .clubs .nine, std .diamonds .nine,
                           std .hearts .two, std .clubs .king, std .spades .ace,
                           std .diamonds .jack, std .hearts .three, std .clubs .six,
                           std .spades .queen]
                  points := 0
                  has_dropped_hand := false
                  dropped_combinations := []
                  turns_played := 0
                  has_drawn_this_turn := true
                  dropped_hand_this_turn := false
                  is_ready_for_next_round := false },
                { id := "opponent"
                  hand := [std .clubs .two]
                  points := 0
                  has_dropped_hand := false
                  dropped_combinations := []
                  turns_played := 0
                  has_drawn_this_turn := false
                  dropped_hand_this_turn := false
                  is_ready_for_next_round := false }]
    current_round := .twoTrios
    round_index := 0
    current_turn := 0
    deck := [std .diamonds .nine]
    discard_pile := [std .diamonds .seven]
    is_game_over := false
    is_waiting_for_next_round := false
    last_action := none }

/-- C10: whenever the seat at `current_turn` has `turns_played = 0` (its
opening turn of the round), `play_bot_turn` never emits a `DropHand`, for
any difficulty, any solver behaviour and any random choices; and in the
spec's concrete scenario (13-card hand with two complete trios, Medium)
it emits a `Discard`. -/
theorem decide_draw_result (easyRand : Bool) (game : GameState)
    (player : PlayerState) (diff : BotDifficulty) :
    decide_draw easyRand game player diff = some .drawFromDeck ∨
    decide_draw easyRand game player diff = some .drawFromDiscard := by
  unfold decide_draw
  by_cases hemp : game.discard_pile.isEmpty = true
  · rw [if_pos hemp]
    exact Or.inl rfl
  rw [if_neg hemp]
  dsimp only
  cases diff
  · cases easyRand
    · exact Or.inl rfl
    · exact Or.inr rfl
  · by_cases hs : decide (15 ≤ card_synergy_score player.hand
        (game.discard_pile.getLast?.getD default)) = true
    · rw [if_pos hs]
      exact Or.inr rfl
    · rw [if_neg hs]
      exact Or.inl rfl
  · by_cases hs : decide (15 ≤ card_synergy_score player.hand
        (game.discard_pile.getLast?.getD default)) = true
    · rw [if_pos hs]
      exact Or.inr rfl
    · rw [if_neg hs]
      exact Or.inl rfl

/-- `decide_discard` always returns a `Discard` message. -/
theorem decide_discard_is_discard (easyIdx hardIdx : Nat)
    (player : PlayerState) (diff : BotDifficulty) :
    ∃ k, decide_discard easyIdx hardIdx player diff = .discard k := by
  unfold decide_discard
  by_cases hemp : player.hand.isEmpty = true
  · rw [if_pos hemp]
    exact ⟨0, rfl⟩
  · rw [if_neg hemp]
    exact ⟨_, rfl⟩

/-- C10: whenever the seat at `current_turn` has `turns_played = 0` (its
opening turn of the round), `play_bot_turn` never emits a `DropHand`, for
any difficulty, any solver behaviour and any random choices; and in the
spec's concrete scenario (13-card hand with two complete trios, Medium)
it emits a `Discard`. -/
theorem bot_never_drops_on_opening_turn :
    (∀ solver easyRand easyIdx hardIdx (game : GameState) (pid : String)
        (diff : BotDifficulty) (p : PlayerState),
      game.players[game.current_turn]? = some p →
      p.turns_played = 0 →
      ∀ m, play_bot_turn solver easyRand easyIdx hardIdx game pid diff = some m →
        m.isDropHand = false) ∧
    (∃ i, play_bot_turn (fun _ _ _ _ => none) false 0 0 medBotGame "bot_test"
        .medium = some (.discard i)) := by
  constructor
  · intro solver easyRand easyIdx hardIdx game pid diff p hget hturns m hm
    unfold play_bot_turn at hm
    simp only [hget] at hm
    by_cases hid : p.id ≠ pid
    · rw [if_pos hid] at hm
      cases hm
    rw [if_neg hid] at hm
    cases hphase : detect_phase p with
    | needDraw =>
      simp only [hphase] at hm
      rcases decide_draw_result easyRand game p diff with h | h <;> rw [h] at hm <;>
        cases hm <;> rfl
    | afterDraw =>
      simp only [hphase, hturns, lt_self_iff_false, if_false] at hm
      obtain ⟨k, hk⟩ := decide_discard_is_discard easyIdx hardIdx p diff
      rw [hk] at hm
      cases hm
      rfl
    | afterBajada =>
      simp only [hphase] at hm
      obtain ⟨k, hk⟩ := decide_discard_is_discard easyIdx hardIdx p diff
      rw [hk] at hm
      cases hm
      rfl
  · exact ⟨_, rfl⟩

/-- C10 witness: the no-DropHand part applied to the concrete opening-turn
scenario (Easy difficulty, arbitrary random choices). -/
theorem bot_never_drops_witness :
    ClientMessage.isDropHand
      ((play_bot_turn (fun _ _ _ _ => none) true 0 0 medBotGame "bot_test"
        .easy).getD .drawFromDeck) = false :=
  bot_never_drops_on_opening_turn.1 (fun _ _ _ _ => none) true 0 0 medBotGame
    "bot_test" .easy _ rfl rfl _ rfl

/-! ## Characterisation of `is_valid_escala` (C3)

`is_valid_escala` computes the largest modular rank gap of the sorted
distinct mapped ranks and accepts when the complementary cyclic window can
be completed with the available jokers.  The following development proves
that this is equivalent to the existence of a cyclic window of length
`#standard + #jokers` (over the rank circle 1…13) containing every mapped
rank. -/

theorem le_foldl_max (g : Nat → Nat) :
    ∀ (l : List Nat) (acc : Nat), acc ≤ l.foldl (fun m i => max m (g i)) acc := by
  intro l
  induction l with
  | nil => intro acc; exact le_refl acc
  | cons b t ih =>
    intro acc
    exact le_trans (Nat.le_max_left acc (g b)) (ih (max acc (g b)))

theorem foldl_max_le_of_mem (g : Nat → Nat) :
    ∀ (l : List Nat) (acc x : Nat), x ∈ l →
      g x ≤ l.foldl (fun m i => max m (g i)) acc := by
  intro l
  induction l with
  | nil => intro acc x hx; cases hx
  | cons b t ih =>
    intro acc x hx
    rcases List.mem_cons.mp hx with rfl | hx
    · exact le_trans (Nat.le_max_right acc (g x)) (le_foldl_max g t (max acc (g x)))
    · exact ih (max acc (g b)) x hx

theorem foldl_max_cases (g : Nat → Nat) :
    ∀ (l : List Nat) (acc : Nat),
      l.foldl (fun m i => max m (g i)) acc = acc ∨
      ∃ x ∈ l, l.foldl (fun m i => max m (g i)) acc = g x := by
  intro l
  induction l with
  | nil => intro acc; exact Or.inl rfl
  | cons b t ih =>
    intro acc
    simp only [List.foldl_cons]
    rcases ih (max acc (g b)) with h | ⟨x, hx, h⟩
    · by_cases hba : g b ≤ acc
      · exact Or.inl (h.trans (Nat.max_eq_left hba))
      · exact Or.inr ⟨b, by simp, h.trans (Nat.max_eq_right (by omega))⟩
    · exact Or.inr ⟨x, List.mem_cons_of_mem b hx, h⟩

theorem gapAt_le_maxGap (v : List Nat) (i : Nat) (hi : i < v.length) :
    gapAt v i ≤ maxGap v :=
  foldl_max_le_of_mem (gapAt v) (List.range v.length) 0 i (List.mem_range.mpr hi)

theorem maxGap_cases (v : List Nat) :
    maxGap v = 0 ∨ ∃ i, i < v.length ∧ maxGap v = gapAt v i := by
  rcases foldl_max_cases (gapAt v) (List.range v.length) 0 with h | ⟨x, hx, h⟩
  · exact Or.inl h
  · exact Or.inr ⟨x, List.mem_range.mp hx, h⟩

theorem gapAt_last (v : List Nat) (h : 1 ≤ v.length) :
    gapAt v (v.length - 1) = v.getD 0 0 + 13 - v.getD (v.length - 1) 0 := by
  unfold gapAt
  have h0 : (v.length - 1 + 1) % v.length = 0 := by
    have he : v.length - 1 + 1 = v.length := by omega
    rw [he, Nat.mod_self]
  rw [h0, if_pos rfl]

theorem gapAt_mid (v : List Nat) (i : Nat) (h : i + 1 < v.length) :
    gapAt v i = v.getD (i + 1) 0 - v.getD i 0 := by
  unfold gapAt
  rw [Nat.mod_eq_of_lt h, if_neg (by omega)]

theorem sorted_getD_mono (v : List Nat) (hs : v.Sorted (· ≤ ·)) (i j : Nat)
    (hij : i ≤ j) (hj : j < v.length) : v.getD i 0 ≤ v.getD j 0 := by
  have hi : i < v.length := by omega
  rw [List.getD_eq_getElem v 0 hi, List.getD_eq_getElem v 0 hj]
  exact hs.rel_get_of_le (Fin.mk_le_mk.mpr hij)

theorem hasAdjDup_eq_false_iff (v : List Nat) (hs : v.Sorted (· ≤ ·)) :
    hasAdjDup v = false ↔ v.Nodup := by
  induction v with
  | nil => simp [hasAdjDup]
  | cons a t ih =>
    cases t with
    | nil => simp [hasAdjDup]
    | cons b u =>
      have hs' : (b :: u).Sorted (· ≤ ·) := hs.of_cons
      have hab : a ≤ b := (List.sorted_cons.mp hs).1 b (by simp)
      constructor
      · intro h
        unfold hasAdjDup at h
        rw [Bool.or_eq_false_iff] at h
        obtain ⟨hne, hrest⟩ := h
        have hne' : a ≠ b := by simpa using hne
        have hnd := (ih hs').mp hrest
        refine List.nodup_cons.mpr ⟨?_, hnd⟩
        intro hmem
        rcases List.mem_cons.mp hmem with rfl | hmem
        · exact hne' rfl
        · have hba : b ≤ a := (List.sorted_cons.mp hs').1 a hmem
          exact hne' (le_antisymm hab hba)
      · intro hnd
        obtain ⟨hna, hnd'⟩ := List.nodup_cons.mp hnd
        have hne' : a ≠ b := fun he => hna (he ▸ List.mem_cons_self b u)
        unfold hasAdjDup
        rw [Bool.or_eq_false_iff]
        exact ⟨by simpa using hne', (ih hs').mpr hnd'⟩

theorem standardRanks_bounds (cards : List Card) (r : Nat)
    (hr : r ∈ standardRanks cards) : 1 ≤ r ∧ r ≤ 13 := by
  unfold standardRanks at hr
  obtain ⟨c, _, he⟩ := List.mem_filterMap.mp hr
  cases c with
  | joker => simp at he
  | standard s w =>
    simp only [Option.some.injEq] at he
    subst he
    cases w <;> simp [mapVal, Value.toNat]

/-- If the minimal cyclic span `13 - maxGap + 1` fits in `m`, every rank
lies in the cyclic window of length `m` starting just after the largest
gap. -/
theorem window_of_span (v : List Nat) (hs : v.Sorted (· ≤ ·)) (hn : 1 ≤ v.length)
    (hb : ∀ i, i < v.length → 1 ≤ v.getD i 0 ∧ v.getD i 0 ≤ 13)
    (m : Nat) (hm : 13 - maxGap v + 1 ≤ m) :
    ∃ a, 1 ≤ a ∧ a ≤ 13 ∧ ∀ t, t < v.length →
      ∃ k, k < m ∧ v.getD t 0 = (a - 1 + k) % 13 + 1 := by
  have hlast : v.length - 1 < v.length := by omega
  have hb0 := hb 0 (by omega)
  have hbl := hb (v.length - 1) hlast
  have hwrapeq := gapAt_last v hn
  have hwraple := gapAt_le_maxGap v (v.length - 1) hlast
  have hmono0 : v.getD 0 0 ≤ v.getD (v.length - 1) 0 :=
    sorted_getD_mono v hs 0 (v.length - 1) (by omega) hlast
  have hmax1 : 1 ≤ maxGap v := by omega
  rcases maxGap_cases v with h0 | ⟨i0, hi0, heq⟩
  · omega
  by_cases hwrap : i0 = v.length - 1
  · subst hwrap
    refine ⟨v.getD 0 0, hb0.1, hb0.2, ?_⟩
    intro t ht
    have hbt := hb t ht
    have h0t : v.getD 0 0 ≤ v.getD t 0 := sorted_getD_mono v hs 0 t (by omega) ht
    have htl : v.getD t 0 ≤ v.getD (v.length - 1) 0 :=
      sorted_getD_mono v hs t (v.length - 1) (by omega) hlast
    refine ⟨v.getD t 0 - v.getD 0 0, by omega, ?_⟩
    have e1 : v.getD 0 0 - 1 + (v.getD t 0 - v.getD 0 0) = v.getD t 0 - 1 := by omega
    rw [e1, Nat.mod_eq_of_lt (by omega)]
    omega
  · have hi0' : i0 + 1 < v.length := by omega
    have hmid := gapAt_mid v i0 hi0'
    have hbi0 := hb i0 (by omega)
    have hbi1 := hb (i0 + 1) hi0'
    have hmio : v.getD i0 0 ≤ v.getD (i0 + 1) 0 :=
      sorted_getD_mono v hs i0 (i0 + 1) (by omega) hi0'
    refine ⟨v.getD (i0 + 1) 0, hbi1.1, hbi1.2, ?_⟩
    intro t ht
    have hbt := hb t ht
    by_cases hti : t ≤ i0
    · have hmt : v.getD t 0 ≤ v.getD i0 0 := sorted_getD_mono v hs t i0 hti (by omega)
      refine ⟨v.getD t 0 + 13 - v.getD (i0 + 1) 0, by omega, ?_⟩
      have e1 : v.getD (i0 + 1) 0 - 1 + (v.getD t 0 + 13 - v.getD (i0 + 1) 0) =
          v.getD t 0 + 12 := by omega
      have e2 : v.getD t 0 + 12 = (v.getD t 0 - 1) + 13 := by omega
      rw [e1, e2, Nat.add_mod_right, Nat.mod_eq_of_lt (by omega)]
      omega
    · have hmt : v.getD (i0 + 1) 0 ≤ v.getD t 0 :=
        sorted_getD_mono v hs (i0 + 1) t (by omega) ht
      refine ⟨v.getD t 0 - v.getD (i0 + 1) 0, by omega, ?_⟩
      have e1 : v.getD (i0 + 1) 0 - 1 + (v.getD t 0 - v.getD (i0 + 1) 0) =
          v.getD t 0 - 1 := by omega
      rw [e1, Nat.mod_eq_of_lt (by omega)]
      omega

/-- Conversely, a cyclic window of length `m` containing every rank forces
the minimal cyclic span `13 - maxGap + 1` to fit in `m`. -/
theorem span_of_window (v : List Nat) (hs : v.Sorted (· ≤ ·)) (hn : 1 ≤ v.length)
    (hb : ∀ i, i < v.length → 1 ≤ v.getD i 0 ∧ v.getD i 0 ≤ 13)
    (m a : Nat) (ha1 : 1 ≤ a) (ha13 : a ≤ 13)
    (hw : ∀ t, t < v.length → ∃ k, k < m ∧ v.getD t 0 = (a - 1 + k) % 13 + 1) :
    13 - maxGap v + 1 ≤ m := by
  have hlast : v.length - 1 < v.length := by omega
  have hb0 := hb 0 (by omega)
  have hbl := hb (v.length - 1) hlast
  have hwrapeq := gapAt_last v hn
  have hwraple := gapAt_le_maxGap v (v.length - 1) hlast
  have hmono0 : v.getD 0 0 ≤ v.getD (v.length - 1) 0 :=
    sorted_getD_mono v hs 0 (v.length - 1) (by omega) hlast
  have hmax1 : 1 ≤ maxGap v := by omega
  by_cases hm13 : 14 ≤ m
  · omega
  have H : ∀ t, t < v.length →
      (a ≤ v.getD t 0 ∧ v.getD t 0 - a < m) ∨ (v.getD t 0 + 13 - a < m) := by
    intro t ht
    obtain ⟨k, hk, hr⟩ := hw t ht
    obtain ⟨h1, h13⟩ := hb t ht
    by_cases hcase : a - 1 + k < 13
    · rw [Nat.mod_eq_of_lt hcase] at hr
      left
      omega
    · have h25 : a - 1 + k - 13 < 13 := by omega
      have he : a - 1 + k = (a - 1 + k - 13) + 13 := by omega
      rw [he, Nat.add_mod_right, Nat.mod_eq_of_lt h25] at hr
      right
      omega
  by_cases hex : ∃ t, t < v.length ∧ v.getD t 0 < a
  · obtain ⟨t0, ht0, hv0⟩ := hex
    set S := (Finset.range v.length).filter (fun t => v.getD t 0 < a) with hS
    have hTne : S.Nonempty :=
      ⟨t0, Finset.mem_filter.mpr ⟨Finset.mem_range.mpr ht0, hv0⟩⟩
    obtain ⟨hmm1, hmm2⟩ := Finset.mem_filter.mp (Finset.max'_mem S hTne)
    have histar : S.max' hTne < v.length := Finset.mem_range.mp hmm1
    rcases H (S.max' hTne) histar with ⟨hge, _⟩ | hstar
    · omega
    by_cases hlaststar : S.max' hTne = v.length - 1
    · rw [hlaststar] at hstar
      omega
    · have hsucc : S.max' hTne + 1 < v.length := by omega
      have hnotin : S.max' hTne + 1 ∉ S := by
        intro hin
        have := Finset.le_max' S _ hin
        omega
      have hge1 : a ≤ v.getD (S.max' hTne + 1) 0 := by
        by_contra hlt
        exact hnotin (Finset.mem_filter.mpr ⟨Finset.mem_range.mpr hsucc, by omega⟩)
      have hmid := gapAt_mid v (S.max' hTne) hsucc
      have hle := gapAt_le_maxGap v (S.max' hTne) (by omega)
      omega
  · push_neg at hex
    have hge := hex (v.length - 1) hlast
    rcases H (v.length - 1) hlast with ⟨_, hlt⟩ | hlt
    · have hge0 := hex 0 (by omega)
      omega
    · omega

/-- C3 (counterexample): `is_valid_escala` never inspects suits, so the
mixed-suit run 3♥ 4♠ 5♥ 6♥ is accepted, refuting the claim that any input
whose non-joker cards span two suits is rejected. -/
theorem escala_ignores_suits :
    is_valid_escala [std .hearts .three, std .spades .four, std .hearts .five,
      std .hearts .six] = true := by decide

/-- Specification-level statement of the amended C3 claim, following its
words: length at least 4, at most one joker, at least one standard card,
pairwise-distinct mapped ranks (Ace counted as 1), and all mapped ranks
contained in a single cyclic window of the rank circle 1…13 whose length
is the number of standard cards plus the number of jokers (suits are never
examined, and the window may wrap at the K/A boundary). -/
def EscalaSpec (cards : List Card) : Prop :=
  4 ≤ cards.length ∧ jokerCount cards ≤ 1 ∧ standardRanks cards ≠ [] ∧
  (standardRanks cards).Nodup ∧
  ∃ a, 1 ≤ a ∧ a ≤ 13 ∧ ∀ r ∈ standardRanks cards,
    ∃ k, k < (standardRanks cards).length + jokerCount cards ∧
      r = (a - 1 + k) % 13 + 1

/-- C3 (amended): `is_valid_escala` returns `true` exactly when the input
has length ≥ 4, at most one joker, at least one standard card, pairwise
distinct mapped ranks (Ace ↦ 1), and all mapped ranks fit in one cyclic
window of length `#standard + #jokers` of the circle 1…13 (so jokers fill
the missing ranks of the window); suits play no role and wrap-around runs
are legal. -/
theorem is_valid_escala_iff (cards : List Card) :
    is_valid_escala cards = true ↔ EscalaSpec cards := by
  unfold is_valid_escala EscalaSpec
  by_cases hlen : cards.length < 4
  · rw [if_pos hlen]
    simp only [Bool.false_eq_true, false_iff]
    intro h
    exact absurd h.1 (by omega)
  rw [if_neg hlen]
  dsimp only
  by_cases hJ : jokerCount cards > 1
  · rw [if_pos hJ]
    simp only [Bool.false_eq_true, false_iff]
    intro h
    exact absurd h.2.1 (by omega)
  rw [if_neg hJ]
  by_cases hne : (standardRanks cards).isEmpty = true
  · rw [if_pos hne]
    simp only [Bool.false_eq_true, false_iff]
    intro h
    exact h.2.2.1 (List.isEmpty_iff.mp hne)
  rw [if_neg hne]
  have hRne : standardRanks cards ≠ [] := fun h => by
    rw [h] at hne
    exact hne rfl
  set R := standardRanks cards with hR
  set v := List.insertionSort (· ≤ ·) R with hv
  have hperm : v.Perm R := List.perm_insertionSort _ R
  have hsort : v.Sorted (· ≤ ·) := List.sorted_insertionSort _ R
  have hlenRV : v.length = R.length := hperm.length_eq
  have hn : 1 ≤ v.length := by
    have := List.length_pos.mpr hRne
    omega
  have hbv : ∀ i, i < v.length → 1 ≤ v.getD i 0 ∧ v.getD i 0 ≤ 13 := by
    intro i hi
    have hmem : v.getD i 0 ∈ v := by
      rw [List.getD_eq_getElem v 0 hi]
      exact v.getElem_mem hi
    exact standardRanks_bounds cards _ (hperm.mem_iff.mp hmem)
  by_cases hdup : hasAdjDup v = true
  · rw [if_pos hdup]
    simp only [Bool.false_eq_true, false_iff]
    intro h
    have hndv : v.Nodup := hperm.nodup_iff.mpr h.2.2.2.1
    have hf := (hasAdjDup_eq_false_iff v hsort).mpr hndv
    rw [hf] at hdup
    exact absurd hdup (by simp)
  rw [if_neg hdup]
  have hdup' : hasAdjDup v = false := by
    revert hdup
    cases hasAdjDup v <;> simp
  have hNodupV : v.Nodup := (hasAdjDup_eq_false_iff v hsort).mp hdup'
  have hNodupR : R.Nodup := hperm.nodup_iff.mp hNodupV
  rw [decide_eq_true_eq]
  constructor
  · intro hcode
    refine ⟨by omega, by omega, hRne, hNodupR, ?_⟩
    have hspan : 13 - maxGap v + 1 ≤ R.length + jokerCount cards := by
      have := Nat.sub_le_iff_le_add.mp hcode
      omega
    obtain ⟨a, ha1, ha13, hwin⟩ := window_of_span v hsort hn hbv _ hspan
    refine ⟨a, ha1, ha13, ?_⟩
    intro r hrR
    have hrv : r ∈ v := hperm.mem_iff.mpr hrR
    obtain ⟨i, hi, he⟩ := List.mem_iff_getElem.mp hrv
    obtain ⟨k, hk, hke⟩ := hwin i hi
    rw [List.getD_eq_getElem v 0 hi] at hke
    rw [← he]
    exact ⟨k, hk, hke⟩
  · rintro ⟨-, -, -, -, a, ha1, ha13, hwin⟩
    have hwv : ∀ t, t < v.length → ∃ k, k < R.length + jokerCount cards ∧
        v.getD t 0 = (a - 1 + k) % 13 + 1 := by
      intro t ht
      refine hwin _ (hperm.mem_iff.mp ?_)
      rw [List.getD_eq_getElem v 0 ht]
      exact v.getElem_mem ht
    have hspan := span_of_window v hsort hn hbv (R.length + jokerCount cards)
      a ha1 ha13 hwv
    rw [Nat.sub_le_iff_le_add]
    omega

end Carioca
